import Mathlib

/-!
# tcp-tunnel: message codec, relay and session registry

A shallow embedding of `common/common.go` (message codec, `Pipe`) and
`server/server_config.go` (session registry, port allocation, handshake and
control loop), followed by the properties established about them.

Modelling conventions

* A Go `byte` is a natural number below 256; a Go `string` is its byte
  sequence; `uint64` arithmetic is taken modulo `2 ^ 64`.
* A `net.Conn` endpoint is a record holding the segments still to be
  delivered to `Read` (one `Read` call never crosses a segment boundary and
  never returns more than the buffer holds), the bytes written so far, the
  number of writes that will still succeed, and the closed flag.
* Connections and listeners held by the registry are handles (numbers) into
  a `World`; a nil interface value or nil pointer is `none`; a nil
  dereference is the fault `Fault.nilDereference` (a Go runtime panic).
* The mutex of `Connections` and the scheduling of goroutines are not
  modelled; a `go` statement records the started goroutine in the world.
* Allocation limits of `make` are not modelled.
-/

namespace TcpTunnel

/-! ## Bytes, errors, connections -/

/-- Go `byte`: a number below 256. -/
abbrev Byte := Nat

/-- Go `string`: an immutable byte sequence. -/
abbrev GoString := List Byte

/-- The bytes of an ASCII string literal. -/
def goString (s : String) : GoString := s.toList.map Char.toNat

/-- Error values that the modelled calls can return. -/
inductive GoError where
  /-- `io.EOF` -/
  | EOF
  /-- `io.ErrUnexpectedEOF` -/
  | ErrUnexpectedEOF
  /-- `net.ErrClosed` -/
  | ErrClosed
  /-- a failed `Write` -/
  | ErrWrite
  /-- `errors.New("Failed to find available port to bind")` -/
  | ErrNoPort
  deriving DecidableEq, Repr

/-- Runtime panics. -/
inductive Fault where
  /-- invalid memory address or nil pointer dereference -/
  | nilDereference
  deriving DecidableEq, Repr

/-- One endpoint of a `net.Conn`. -/
structure Conn where
  /-- value of `RemoteAddr().String()` -/
  remoteAddr : GoString
  /-- segments not yet read, in delivery order; after them the peer has closed -/
  input : List (List Byte)
  /-- all bytes written so far -/
  output : List Byte
  /-- `none`: every write succeeds; `some k`: the next `k` writes succeed -/
  writesLeft : Option Nat
  /-- whether `Close` has been called on this endpoint -/
  closed : Bool
  deriving DecidableEq, Repr

/-- The data handed out by one `Read` with a buffer of `n > 0` bytes, and the
segments left: at most `n` bytes of the first non-empty segment. -/
def readSegment (n : Nat) : List (List Byte) → Option (List Byte × List (List Byte))
  | [] => none
  | [] :: rest => readSegment n rest
  | (b :: seg) :: rest =>
    some ((b :: seg).take n,
      if (b :: seg).length ≤ n then rest else (b :: seg).drop n :: rest)

/-- `c.Read(p)` with `len(p) = n`: the bytes stored at the front of `p`,
the error, and the endpoint afterwards. -/
def Conn.Read (c : Conn) (n : Nat) : (List Byte × Option GoError) × Conn :=
  if c.closed then (([], some GoError.ErrClosed), c)
  else if n = 0 then (([], none), c)
  else
    match readSegment n c.input with
    | none => (([], some GoError.EOF), { c with input := [] })
    | some (bs, rest) => ((bs, none), { c with input := rest })

/-- `c.Write(b)`: the count written, the error, and the endpoint afterwards. -/
def Conn.Write (c : Conn) (b : List Byte) : (Nat × Option GoError) × Conn :=
  if c.closed then ((0, some GoError.ErrClosed), c)
  else
    match c.writesLeft with
    | some 0 => ((0, some GoError.ErrWrite), c)
    | some (k + 1) =>
      ((b.length, none), { c with output := c.output ++ b, writesLeft := some k })
    | none => ((b.length, none), { c with output := c.output ++ b })

/-- The next `k` writes on `c` succeed. -/
def Conn.canWrite (c : Conn) (k : Nat) : Bool :=
  !c.closed && (match c.writesLeft with
    | none => true
    | some j => decide (k ≤ j))

/-- A buffer after `Read` stored `bs` at its front. -/
def fill (buf bs : List Byte) : List Byte := bs ++ buf.drop bs.length

/-- The loop of `io.ReadAtLeast(r, buf, min)` with `len(buf) = min`:
`for n < min && err == nil { nn, err = r.Read(buf[n:]); n += nn }`.
`acc` holds the `n` bytes read so far. -/
def readLoop : Nat → Conn → Nat → List Byte → (List Byte × Option GoError) × Conn
  | 0, c, _, acc => ((acc, none), c)
  | fuel + 1, c, min, acc =>
    if acc.length < min then
      let r := c.Read (min - acc.length)
      match r.1.2 with
      | some e => ((acc ++ r.1.1, some e), r.2)
      | none => readLoop fuel r.2 min (acc ++ r.1.1)
    else ((acc, none), c)

/-- `io.ReadFull(c, buf)` with `len(buf) = len`. Every successful `Read` of a
non-empty buffer yields at least one byte, so `len` iterations suffice. -/
def ReadFull (c : Conn) (len : Nat) : (List Byte × Option GoError) × Conn :=
  let r := readLoop len c len []
  if len ≤ r.1.1.length then ((r.1.1, none), r.2)
  else if 0 < r.1.1.length ∧ r.1.2 = some GoError.EOF then
    ((r.1.1, some GoError.ErrUnexpectedEOF), r.2)
  else r

/-- `binary.BigEndian.PutUint64`: `b[i] = byte(v >> (56 - 8 i))`. -/
def PutUint64 (v : Nat) : List Byte :=
  [(v >>> 56) % 256, (v >>> 48) % 256, (v >>> 40) % 256, (v >>> 32) % 256,
   (v >>> 24) % 256, (v >>> 16) % 256, (v >>> 8) % 256, v % 256]

/-- `binary.BigEndian.Uint64`:
`uint64(b[7]) | uint64(b[6])<<8 | ... | uint64(b[0])<<56`. -/
def Uint64 (b : List Byte) : Nat :=
  b.getD 7 0 ||| (b.getD 6 0 <<< 8) ||| (b.getD 5 0 <<< 16) ||| (b.getD 4 0 <<< 24) |||
    (b.getD 3 0 <<< 32) ||| (b.getD 2 0 <<< 40) ||| (b.getD 1 0 <<< 48) |||
    (b.getD 0 0 <<< 56)

/-- `binary.Read(c, binary.BigEndian, &v)` for `v` of type `uint64`. -/
def binaryRead (c : Conn) : Except GoError Nat × Conn :=
  let r := ReadFull c 8
  match r.1.2 with
  | some e => (Except.error e, r.2)
  | none => (Except.ok (Uint64 r.1.1), r.2)

/-- `binary.Write(c, binary.BigEndian, v)` for `v` of type `uint64`. -/
def binaryWrite (c : Conn) (v : Nat) : Option GoError × Conn :=
  ((c.Write (PutUint64 v)).1.2, (c.Write (PutUint64 v)).2)

/-! ## common.go: messages -/

/-- `Connect uint64 = iota + 1` -/
def Connect : Nat := 0 + 1
/-- `Incoming` (iota = 1) -/
def Incoming : Nat := 1 + 1
/-- `Ok` (iota = 2) -/
def Ok : Nat := 2 + 1
/-- `Error` (iota = 3) -/
def Error : Nat := 3 + 1

/-- `type Message struct` -/
structure Message where
  MessageType : Nat
  PayloadSize : Nat
  Payload : List Byte
  deriving DecidableEq, Repr

/-- `func ParseMessage(c net.Conn) (Message, error)` -/
def ParseMessage (c : Conn) : Except GoError Message × Conn :=
  let r1 := binaryRead c
  match r1.1 with
  | Except.error e => (Except.error e, r1.2)
  | Except.ok messageType =>
    let r2 := binaryRead r1.2
    match r2.1 with
    | Except.error e => (Except.error e, r2.2)
    | Except.ok payloadSize =>
      -- payload := make([]byte, payloadSize); _, err = c.Read(payload)
      let r3 := r2.2.Read payloadSize
      match r3.1.2 with
      | some e => (Except.error e, r3.2)
      | none =>
        (Except.ok
          { MessageType := messageType
            PayloadSize := payloadSize
            Payload := fill (List.replicate payloadSize 0) r3.1.1 }, r3.2)

/-- `func SendMessage(c net.Conn, m Message) (uint64, error)` -/
def SendMessage (c : Conn) (m : Message) : Except GoError Nat × Conn :=
  let w1 := binaryWrite c m.MessageType
  match w1.1 with
  | some e => (Except.error e, w1.2)
  | none =>
    -- var n uint64 = 1
    let w2 := binaryWrite w1.2 m.PayloadSize
    match w2.1 with
    | some e => (Except.error e, w2.2)
    | none =>
      -- n += uint64(m.PayloadSize)
      let n := (1 + m.PayloadSize) % 2 ^ 64
      let w3 := w2.2.Write m.Payload
      match w3.1.2 with
      | some e => (Except.error e, w3.2)
      | none => (Except.ok ((n + w3.1.1) % 2 ^ 64), w3.2)

/-! ## common.go: Pipe -/

/-- `bytes.TrimLeft(s, cutset)` -/
def bytesTrimLeft (s cutset : List Byte) : List Byte :=
  s.dropWhile (fun b => cutset.contains b)

/-- `bytes.TrimRight(s, cutset)` -/
def bytesTrimRight (s cutset : List Byte) : List Byte :=
  (s.reverse.dropWhile (fun b => cutset.contains b)).reverse

/-- `bytes.Trim(s, cutset)`: all leading and trailing bytes of `cutset` removed. -/
def bytesTrim (s cutset : List Byte) : List Byte :=
  bytesTrimLeft (bytesTrimRight s cutset) cutset

/-- `const bufferSize = 4096` -/
def bufferSize : Nat := 4096

/-- Body of `Pipe` on two non-nil connections; returns `(destination, source)`. -/
def pipeConns (destination source : Conn) : Conn × Conn :=
  -- bufferDestination := make([]byte, bufferSize); source.Read(bufferDestination)
  let r1 := source.Read bufferSize
  let bufferDestination := fill (List.replicate bufferSize 0) r1.1.1
  -- destination.Write(bytes.Trim(bufferDestination, "\x00"))
  let w1 := destination.Write (bytesTrim bufferDestination [0])
  -- bufferSource := make([]byte, bufferSize); destination.Read(bufferSource)
  let r2 := w1.2.Read bufferSize
  let bufferSource := fill (List.replicate bufferSize 0) r2.1.1
  -- source.Write(bytes.Trim(bufferSource, "\x00"))
  let w2 := r1.2.Write (bytesTrim bufferSource [0])
  (r2.2, w2.2)

/-- `func Pipe(destination net.Conn, source net.Conn)`. The first statement
that touches a connection is `source.Read`, the second `destination.Write`;
a method call on a nil interface panics. -/
def Pipe (destination source : Option Conn) : Except Fault (Conn × Conn) :=
  match source, destination with
  | none, _ => Except.error Fault.nilDereference
  | some _, none => Except.error Fault.nilDereference
  | some s, some d => Except.ok (pipeConns d s)

/-! ## server_config.go: session registry -/

/-- `type clientConnection struct`; connections and listeners are handles. -/
structure clientConnection where
  /-- control connection of the agent -/
  conn : Nat
  /-- public listener bound for the agent -/
  clientListener : Nat
  /-- pending public connection; `none` is the nil interface value -/
  clientListenerConn : Option Nat
  deriving DecidableEq, Repr

/-- Goroutines started by a `go` statement. -/
inductive Goroutine where
  /-- `go s.createPortListener(c)` -/
  | createPortListener (c : Nat)
  /-- the accept loop `go func() { for { listener.Accept() ... } }()` -/
  | acceptLoop (listener : Nat) (clientId : GoString) (c : Nat)
  deriving DecidableEq, Repr

/-- The state the server code acts on: the map `Connections.entries`
(`none` is the nil pointer a Go map yields for an absent key), the
connection endpoints by handle, the listeners closed so far and the
goroutines started so far. -/
structure World where
  entries : GoString → Option clientConnection
  conns : Nat → Conn
  closedListeners : List Nat
  spawned : List Goroutine

/-- Replace the endpoint stored under handle `h`. -/
def World.setConn (w : World) (h : Nat) (c : Conn) : World :=
  { w with conns := Function.update w.conns h c }

/-- `Close()` on the connection with handle `h`. -/
def World.closeConn (w : World) (h : Nat) : World :=
  w.setConn h { w.conns h with closed := true }

/-- `Close()` on the listener with handle `l`. -/
def World.closeListener (w : World) (l : Nat) : World :=
  { w with closedListeners := l :: w.closedListeners }

/-- `common.SendMessage(c, m)` on handle `c`, the result discarded or only logged. -/
def World.send (w : World) (c : Nat) (m : Message) : World :=
  w.setConn c (SendMessage (w.conns c) m).2

/-- `func (c *Connections) AddListenerConnection(conn net.Conn, id string)`:
`c.entries[id].clientListenerConn = conn`. -/
def AddListenerConnection (w : World) (conn : Nat) (id : GoString) : Except Fault World :=
  match w.entries id with
  | none => Except.error Fault.nilDereference
  | some e =>
    let e1 : clientConnection := { e with clientListenerConn := some conn }
    Except.ok { w with entries := Function.update w.entries id (some e1) }

/-- `func (c *Connections) AddNewClient(clientConn *clientConnection, id string)` -/
def AddNewClient (w : World) (clientConn : clientConnection) (id : GoString) : World :=
  { w with entries := Function.update w.entries id (some clientConn) }

/-- `func (c *Connections) ClientDisconnected(id string)` -/
def ClientDisconnected (w : World) (id : GoString) : Except Fault World :=
  match w.entries id with
  | none => Except.error Fault.nilDereference
  | some e =>
    -- if listenerConn := c.entries[id].clientListenerConn; listenerConn != nil
    let w1 := match e.clientListenerConn with
      | some listenerConn => w.closeConn listenerConn
      | none => w
    let w2 := w1.closeListener e.clientListener
    let w3 := w2.closeConn e.conn
    -- delete(c.entries, id)
    Except.ok { w3 with entries := Function.update w3.entries id none }

/-- `func (c *Connections) evictListenerConnectionForClient(id string) net.Conn` -/
def evictListenerConnectionForClient (w : World) (id : GoString) :
    Except Fault (Option Nat × World) :=
  match w.entries id with
  | none => Except.error Fault.nilDereference
  | some e =>
    let clientConnListener := e.clientListenerConn
    let e1 : clientConnection := { e with clientListenerConn := none }
    Except.ok (clientConnListener,
      { w with entries := Function.update w.entries id (some e1) })

/-! ## server_config.go: port allocation and handshake -/

/-- `const min_port_value = 60000` -/
def min_port_value : Nat := 60000
/-- `const max_port_value = 61000` -/
def max_port_value : Nat := 61000

/-- The `for _, val := range ...` loop of `tryToBindPort`; `probe port` tells
whether `net.Listen("tcp", "localhost:port")` succeeds there (the listener
is closed again at once). -/
def tryToBindPortLoop (probe : Nat → Bool) : List Nat → Except GoError Nat
  | [] => Except.error GoError.ErrNoPort
  | val :: rest =>
    if probe (min_port_value + val) then Except.ok (min_port_value + val)
    else tryToBindPortLoop probe rest

/-- `func tryToBindPort() (int, error)`; `perm` is the value of
`rand.Perm(max_port_value - min_port_value)`. -/
def tryToBindPort (perm : List Nat) (probe : Nat → Bool) : Except GoError Nat :=
  tryToBindPortLoop probe perm

/-- What the network does for one run of `createPortListener`. -/
structure NetEnv where
  /-- value of `rand.Perm(max_port_value - min_port_value)` -/
  perm : List Nat
  /-- whether the probing `net.Listen` in `tryToBindPort` succeeds on a port -/
  probe : Nat → Bool
  /-- the `net.Listen` of `createPortListener` on a port: a listener handle, or failure -/
  listen : Nat → Option Nat

/-- `func (s *ServerConfig) createPortListener(c net.Conn)` up to and including
the `go` statement that starts the accept loop. -/
def createPortListener (env : NetEnv) (w : World) (c : Nat) : World :=
  let clientId := (w.conns c).remoteAddr
  -- port, err := tryToBindPort(); if err != nil { log; SendMessage(c, Error) }
  let pw : Nat × World :=
    match tryToBindPort env.perm env.probe with
    | Except.error _ =>
      (0, w.send c { MessageType := Error, PayloadSize := 0, Payload := [] })
    | Except.ok port => (port, w)
  let port := pw.1
  let w1 := pw.2
  let host := goString ("localhost:" ++ toString port)
  -- listener, err := net.Listen("tcp", host); if err != nil { log; return }
  match env.listen port with
  | none => w1
  | some listener =>
    let w2 := AddNewClient w1
      { conn := c, clientListener := listener, clientListenerConn := none } clientId
    let w3 := w2.send c
      { MessageType := Ok, PayloadSize := host.length % 2 ^ 64, Payload := host }
    { w3 with spawned := w3.spawned ++ [Goroutine.acceptLoop listener clientId c] }

/-- One iteration of the accept loop; `accepted` is the connection returned by
`listener.Accept()`, `none` when it returned an error. The flag tells whether
the loop has returned. -/
def acceptLoopIter (w : World) (clientId : GoString) (c : Nat) (accepted : Option Nat) :
    Except Fault (Bool × World) :=
  match accepted with
  | none => Except.ok (true, w)
  | some conn =>
    match AddListenerConnection w conn clientId with
    | Except.error f => Except.error f
    | Except.ok w1 =>
      Except.ok (false, w1.send c
        { MessageType := Incoming, PayloadSize := clientId.length % 2 ^ 64,
          Payload := clientId })

/-! ## server_config.go: control loop -/

/-- The `switch message.MessageType` of `handleNewConnection`. -/
def dispatch (w : World) (c : Nat) (message : Message) : Except Fault World :=
  if message.MessageType = Connect then
    -- go s.createPortListener(c)
    Except.ok { w with spawned := w.spawned ++ [Goroutine.createPortListener c] }
  else if message.MessageType = Ok then
    let connId := message.Payload
    match evictListenerConnectionForClient w connId with
    | Except.error f => Except.error f
    | Except.ok r =>
      let listenerConn := r.1
      let w1 := r.2
      -- common.Pipe(c, listenerConn)
      match Pipe (some (w1.conns c)) (listenerConn.map w1.conns) with
      | Except.error f => Except.error f
      | Except.ok ds =>
        match listenerConn with
        | none => Except.error Fault.nilDereference
        | some h =>
          -- listenerConn.Close()
          Except.ok (((w1.setConn c ds.1).setConn h ds.2).closeConn h)
  else Except.ok w

/-- One iteration of the `for` loop of `handleNewConnection` on the control
connection with handle `c`; the flag tells whether the loop was left by
`break`. -/
def handleNewConnectionIter (w : World) (c : Nat) : Except Fault (Bool × World) :=
  let r := ParseMessage (w.conns c)
  let w1 := w.setConn c r.2
  match r.1 with
  | Except.error err =>
    if err = GoError.ErrClosed ∨ err = GoError.EOF then
      match ClientDisconnected w1 (w1.conns c).remoteAddr with
      | Except.error f => Except.error f
      | Except.ok w2 => Except.ok (true, w2)
    else
      -- the error is logged; message is the zero Message
      match dispatch w1 c { MessageType := 0, PayloadSize := 0, Payload := [] } with
      | Except.error f => Except.error f
      | Except.ok w2 => Except.ok (false, w2)
  | Except.ok message =>
    match dispatch w1 c message with
    | Except.error f => Except.error f
    | Except.ok w2 => Except.ok (false, w2)

/-- `func (s *ServerConfig) handleNewConnection(c net.Conn)`, run for at most
`fuel` iterations; the flag tells whether the loop was left by `break`. -/
def handleNewConnection : Nat → World → Nat → Except Fault (Bool × World)
  | 0, w, _ => Except.ok (false, w)
  | fuel + 1, w, c =>
    match handleNewConnectionIter w c with
    | Except.error f => Except.error f
    | Except.ok (true, w1) => Except.ok (true, w1)
    | Except.ok (false, w1) => handleNewConnection fuel w1 c

/-! ## Definitions used to state the properties -/

/-- The frame of a message as three consecutive writes of `SendMessage` lay it
out: encoded type, encoded size, payload. -/
def frameOf (m : Message) : List Byte :=
  PutUint64 m.MessageType ++ PutUint64 m.PayloadSize ++ m.Payload

/-- The wire format in the words of the specification: the 8-byte big-endian
unsigned encoding of `v`, that is its eight base-256 digits, most significant
first. -/
def bigEndian8 (v : Nat) : List Byte :=
  (List.range 8).map (fun i => v / 256 ^ (7 - i) % 256)

/-- The number a big-endian digit sequence denotes. -/
def beValue (bs : List Byte) : Nat := bs.foldl (fun acc b => acc * 256 + b) 0

/-- The block neither starts nor ends with a zero byte. -/
def noZeroEnds (s : List Byte) : Bool := s.head? != some 0 && s.getLast? != some 0

/-! ## Concrete states used by the examples -/

/-- The agent id used in the examples: the bytes of `"agent"`. -/
def agentId : GoString := goString "agent"

/-- An open endpoint on which every write succeeds and nothing was written. -/
def freshConn (addr : GoString) (input : List (List Byte)) : Conn :=
  { remoteAddr := addr, input := input, output := [], writesLeft := none, closed := false }

/-- An empty registry; connection 1 is a control connection from `agentId`
whose peer has closed. -/
def emptyWorld : World :=
  { entries := fun _ => none
    conns := fun h => freshConn (if h = 1 then agentId else []) []
    closedListeners := []
    spawned := [] }

/-- The agent is registered with control connection 1, listener 2 and
connection 3 waiting in the pending slot. -/
def occupiedWorld : World :=
  AddNewClient emptyWorld { conn := 1, clientListener := 2, clientListenerConn := some 3 } agentId

/-- The frame of the acknowledgment `Ok` with payload `agentId`. -/
def ackFrame : List Byte := frameOf { MessageType := Ok, PayloadSize := 5, Payload := agentId }

/-- The agent is registered with an empty pending slot, and its acknowledgment
is waiting to be read on control connection 1. -/
def idleWorld : World :=
  { entries := fun id =>
      if id = agentId then some { conn := 1, clientListener := 2, clientListenerConn := none }
      else none
    conns := fun h => if h = 1 then freshConn agentId [ackFrame] else freshConn [] []
    closedListeners := []
    spawned := [] }

/-- Every port of the range is taken; the later `net.Listen` on port 0 yields
listener 7. -/
def envNoPort : NetEnv :=
  { perm := List.range 1000
    probe := fun _ => false
    listen := fun p => if p = 0 then some 7 else none }

/-- The probe succeeds on every port, the later `net.Listen` fails. -/
def envBindFails : NetEnv :=
  { perm := List.range 1000, probe := fun _ => true, listen := fun _ => none }

/-- The offsets `999, 998, ..., 0`, a possible value of `rand.Perm(1000)`. -/
def descendingOffsets : List Nat := (List.range (max_port_value - min_port_value)).reverse

/-- Only port 60002 can be bound. -/
def onlyPort60002 (port : Nat) : Bool := port == 60002

/-- A reader to which the frame of `Ok` with payload `[1, 2]` arrives in two
segments, the second holding the last payload byte. -/
def splitReader : Conn :=
  freshConn [] [[0, 0, 0, 0, 0, 0, 0, 3, 0, 0, 0, 0, 0, 0, 0, 2, 1], [2]]

/-- A reader whose stream ends after a complete header declaring two payload
bytes and one payload byte. -/
def truncatedReader : Conn :=
  freshConn [] [[0, 0, 0, 0, 0, 0, 0, 3, 0, 0, 0, 0, 0, 0, 0, 2, 7]]

/-- A source that delivers `[1, 2]` in two segments before its end of stream. -/
def twoSegmentSource : Conn := freshConn [] [[1], [2]]

/-- A source that delivers a block with a leading and a trailing zero byte. -/
def zeroEndedSource : Conn := freshConn [] [[0, 65, 0]]

/-- A destination that answers with one segment. -/
def replyingDestination : Conn := freshConn [] [[9, 8]]

/-! ## Properties -/

/-! ### Writing: the frame emitted by `SendMessage` -/

theorem PutUint64_length (v : Nat) : (PutUint64 v).length = 8 := rfl

/-- The bytes `PutUint64` stores are the big-endian digits of the specification. -/
theorem PutUint64_eq_bigEndian8 (v : Nat) : PutUint64 v = bigEndian8 v := by
  simp [PutUint64, bigEndian8, List.range_succ, Nat.shiftRight_eq_div_pow]

/-- The eight digits of a 64-bit value denote that value. -/
theorem beValue_bigEndian8 (v : Nat) (hv : v < 2 ^ 64) : beValue (bigEndian8 v) = v := by
  simp [bigEndian8, beValue, List.range_succ]
  omega

theorem lor_shiftLeft_of_lt (a b k : Nat) (ha : a < 2 ^ k) :
    a ||| (b <<< k) = a + b * 2 ^ k := by
  rw [Nat.lor_comm, Nat.shiftLeft_eq, Nat.mul_comm, ← Nat.mul_add_lt_is_or ha, Nat.add_comm,
    Nat.mul_comm]

/-- Decoding with `Uint64` what `PutUint64` stored gives the value back. -/
theorem Uint64_PutUint64 (v : Nat) (hv : v < 2 ^ 64) : Uint64 (PutUint64 v) = v := by
  simp only [Uint64, PutUint64, List.getD_cons_zero, List.getD_cons_succ,
    Nat.shiftRight_eq_div_pow]
  rw [lor_shiftLeft_of_lt _ _ 8 (by omega), lor_shiftLeft_of_lt _ _ 16 (by omega),
    lor_shiftLeft_of_lt _ _ 24 (by omega), lor_shiftLeft_of_lt _ _ 32 (by omega),
    lor_shiftLeft_of_lt _ _ 40 (by omega), lor_shiftLeft_of_lt _ _ 48 (by omega),
    lor_shiftLeft_of_lt _ _ 56 (by omega)]
  omega

theorem closed_of_canWrite (c : Conn) (k : Nat) (h : c.canWrite k = true) :
    c.closed = false := by
  cases hc : c.closed with
  | false => rfl
  | true => simp [Conn.canWrite, hc] at h

/-- A write on an endpoint that still accepts writes appends the bytes and
changes nothing else but the count of writes left. -/
theorem Write_of_canWrite (c : Conn) (b : List Byte) (k : Nat)
    (h : c.canWrite (k + 1) = true) :
    (c.Write b).1 = (b.length, none) ∧ (c.Write b).2.output = c.output ++ b ∧
    (c.Write b).2.canWrite k = true ∧ (c.Write b).2.input = c.input ∧
    (c.Write b).2.closed = false ∧ (c.Write b).2.remoteAddr = c.remoteAddr := by
  obtain ⟨ra, inp, out, wl, cl⟩ := c
  cases cl with
  | true => simp [Conn.canWrite] at h
  | false =>
    cases wl with
    | none => simp [Conn.Write, Conn.canWrite]
    | some j =>
      cases j with
      | zero => simp [Conn.canWrite] at h
      | succ j =>
        simp only [Conn.canWrite, Bool.not_false, Bool.true_and, decide_eq_true_eq] at h
        simp [Conn.Write, Conn.canWrite]
        omega

/-- With three writes succeeding, `SendMessage` returns `1 + PayloadSize +
len(Payload)` and appends the frame to what was written before. -/
theorem SendMessage_output (c : Conn) (m : Message) (hw : c.canWrite 3 = true) :
    (SendMessage c m).1
        = Except.ok (((1 + m.PayloadSize) % 2 ^ 64 + m.Payload.length) % 2 ^ 64) ∧
    (SendMessage c m).2.output = c.output ++ frameOf m := by
  obtain ⟨h1, h1o, h1w, -⟩ := Write_of_canWrite c (PutUint64 m.MessageType) 2 hw
  obtain ⟨h2, h2o, h2w, -⟩ :=
    Write_of_canWrite (c.Write (PutUint64 m.MessageType)).2 (PutUint64 m.PayloadSize) 1 h1w
  obtain ⟨h3, h3o, -⟩ :=
    Write_of_canWrite ((c.Write (PutUint64 m.MessageType)).2.Write (PutUint64 m.PayloadSize)).2
      m.Payload 0 h2w
  constructor
  · simp only [SendMessage, binaryWrite, h1, h2, h3]
  · simp only [SendMessage, binaryWrite, h1, h2, h3]
    rw [h3o, h2o, h1o]
    simp [frameOf]

/-- C7: for every message whose `PayloadSize` equals the length of its payload,
on a connection where the three writes succeed, `SendMessage` succeeds and the
bytes it writes are exactly the 8-byte big-endian encoding of `MessageType`,
then the 8-byte big-endian encoding of `PayloadSize`, then the payload, that is
`16 + PayloadSize` bytes and nothing else; the type codes are `Connect = 1`,
`Incoming = 2`, `Ok = 3`, `Error = 4`. -/
theorem SendMessage_emits_frame (c : Conn) (m : Message)
    (hsize : m.PayloadSize = m.Payload.length) (hw : c.canWrite 3 = true) :
    (∃ n, (SendMessage c m).1 = Except.ok n) ∧
    (SendMessage c m).2.output =
      c.output ++ (bigEndian8 m.MessageType ++ bigEndian8 m.PayloadSize ++ m.Payload) ∧
    (bigEndian8 m.MessageType ++ bigEndian8 m.PayloadSize ++ m.Payload).length
      = 16 + m.PayloadSize ∧
    Connect = 1 ∧ Incoming = 2 ∧ Ok = 3 ∧ Error = 4 := by
  obtain ⟨hres, hout⟩ := SendMessage_output c m hw
  refine ⟨⟨_, hres⟩, ?_, ?_, rfl, rfl, rfl, rfl⟩
  · rw [hout, frameOf, PutUint64_eq_bigEndian8, PutUint64_eq_bigEndian8]
  · simp [bigEndian8, hsize]
    omega

/-- C7 at a concrete message: `Incoming` with a three-byte payload sent on a
fresh connection. -/
theorem SendMessage_emits_frame_witness :
    (3 = [7, 0, 9].length ∧ (freshConn agentId []).canWrite 3 = true) ∧
    ((∃ n, (SendMessage (freshConn agentId [])
        { MessageType := Incoming, PayloadSize := 3, Payload := [7, 0, 9] }).1 = Except.ok n) ∧
     (SendMessage (freshConn agentId [])
        { MessageType := Incoming, PayloadSize := 3, Payload := [7, 0, 9] }).2.output =
      (freshConn agentId []).output ++
        (bigEndian8 Incoming ++ bigEndian8 3 ++ [7, 0, 9]) ∧
     (bigEndian8 Incoming ++ bigEndian8 3 ++ [7, 0, 9]).length = 16 + 3 ∧
     Connect = 1 ∧ Incoming = 2 ∧ Ok = 3 ∧ Error = 4) :=
  ⟨⟨rfl, rfl⟩,
    SendMessage_emits_frame (freshConn agentId [])
      { MessageType := Incoming, PayloadSize := 3, Payload := [7, 0, 9] } rfl rfl⟩

/-! ### Reading: `Read`, `io.ReadFull` and `ParseMessage` -/

theorem readSegment_cons (n : Nat) (s : List Byte) (rest : List (List Byte)) (hs : s ≠ []) :
    readSegment n (s :: rest)
      = some (s.take n, if s.length ≤ n then rest else s.drop n :: rest) := by
  cases s with
  | nil => exact absurd rfl hs
  | cons b t => rfl

theorem Read_segment (c : Conn) (n : Nat) (s : List Byte) (rest : List (List Byte))
    (hc : c.closed = false) (hn : 0 < n) (hi : c.input = s :: rest) (hs : s ≠ []) :
    c.Read n = ((s.take n, none),
      { c with input := if s.length ≤ n then rest else s.drop n :: rest }) := by
  have hn0 : n ≠ 0 := Nat.pos_iff_ne_zero.mp hn
  simp [Conn.Read, hc, hn0, hi, readSegment_cons n s rest hs]

theorem readSegment_eq_none (n : Nat) (l : List (List Byte)) :
    readSegment n l = none ↔ l.flatten = [] := by
  induction l with
  | nil => simp [readSegment]
  | cons s t ih =>
    cases s with
    | nil => simpa [readSegment] using ih
    | cons b seg => simp [readSegment]

theorem readSegment_eq_some (n : Nat) (hn : 0 < n) (l : List (List Byte))
    (bs : List Byte) (rest : List (List Byte)) (h : readSegment n l = some (bs, rest)) :
    bs ≠ [] ∧ bs.length ≤ n ∧ bs ++ rest.flatten = l.flatten := by
  induction l with
  | nil => simp [readSegment] at h
  | cons s t ih =>
    cases s with
    | nil => simpa [readSegment] using ih (by simpa [readSegment] using h)
    | cons b seg =>
      simp only [readSegment, Option.some.injEq, Prod.mk.injEq] at h
      obtain ⟨hbs, hrest⟩ := h
      subst hbs
      refine ⟨?_, ?_, ?_⟩
      · cases n with
        | zero => omega
        | succ k => simp
      · simp [List.length_take]
      · by_cases hle : (b :: seg).length ≤ n
        · rw [if_pos hle] at hrest
          subst hrest
          rw [List.take_of_length_le hle]
          simp
        · rw [if_neg hle] at hrest
          subst hrest
          simp only [List.flatten_cons, ← List.append_assoc, List.take_append_drop]

theorem Read_closed (c : Conn) (n : Nat) (hc : c.closed = true) :
    c.Read n = (([], some GoError.ErrClosed), c) := by
  simp [Conn.Read, hc]

theorem Read_open (c : Conn) (n : Nat) (hc : c.closed = false) (hn : 0 < n) :
    ((c.Read n).1 = ([], some GoError.EOF) ∧ c.input.flatten = []) ∨
    (∃ bs, (c.Read n).1 = (bs, none) ∧ bs ≠ [] ∧ bs.length ≤ n ∧
      bs ++ (c.Read n).2.input.flatten = c.input.flatten ∧ (c.Read n).2.closed = false) := by
  have hn0 : n ≠ 0 := Nat.pos_iff_ne_zero.mp hn
  cases hseg : readSegment n c.input with
  | none =>
    left
    exact ⟨by simp [Conn.Read, hc, hn0, hseg], (readSegment_eq_none n _).1 hseg⟩
  | some p =>
    right
    obtain ⟨bs, rest⟩ := p
    obtain ⟨h1, h2, h3⟩ := readSegment_eq_some n hn _ bs rest hseg
    exact ⟨bs, by simp [Conn.Read, hc, hn0, hseg], h1, h2,
      by simpa [Conn.Read, hc, hn0, hseg] using h3, by simp [Conn.Read, hc, hn0, hseg, hc]⟩

/-- When fewer bytes than asked for arrive before the stream ends, the read
loop stops on the end-of-stream error having collected all of them. -/
theorem readLoop_short (fuel : Nat) (c : Conn) (min : Nat) (acc : List Byte)
    (hc : c.closed = false) (hlt : acc.length + c.input.flatten.length < min)
    (hfuel : min ≤ fuel + acc.length) :
    (readLoop fuel c min acc).1 = (acc ++ c.input.flatten, some GoError.EOF) := by
  induction fuel generalizing c acc with
  | zero => omega
  | succ fuel ih =>
    have hacc : acc.length < min := by omega
    unfold readLoop
    rw [if_pos hacc]
    rcases Read_open c (min - acc.length) hc (by omega) with ⟨hr, hfl⟩ | ⟨bs, hr, hne, hlen, hfl, hcl⟩
    · simp [hr, hfl]
    · simp only [hr]
      have hpos : 0 < bs.length := List.length_pos.2 hne
      have hfl2 : bs.length + (c.Read (min - acc.length)).2.input.flatten.length
          = c.input.flatten.length := by
        rw [← hfl, List.length_append]
      rw [ih _ _ hcl (by rw [List.length_append]; omega) (by rw [List.length_append]; omega)]
      rw [← hfl, List.append_assoc]

/-- When enough bytes arrive, in whatever segments, the read loop returns
exactly the next `min - len acc` of them and leaves the rest in the stream. -/
theorem readLoop_enough (fuel : Nat) (c : Conn) (min : Nat) (acc : List Byte)
    (hc : c.closed = false) (hge : min ≤ acc.length + c.input.flatten.length)
    (hfuel : min ≤ fuel + acc.length) :
    (readLoop fuel c min acc).1 = (acc ++ c.input.flatten.take (min - acc.length), none) ∧
    (readLoop fuel c min acc).2.input.flatten = c.input.flatten.drop (min - acc.length) ∧
    (readLoop fuel c min acc).2.closed = false := by
  induction fuel generalizing c acc with
  | zero =>
    have h0 : min - acc.length = 0 := by omega
    simp [readLoop, h0, hc]
  | succ fuel ih =>
    unfold readLoop
    by_cases hacc : acc.length < min
    · rw [if_pos hacc]
      rcases Read_open c (min - acc.length) hc (by omega) with
        ⟨hr, hfl⟩ | ⟨bs, hr, hne, hlen, hfl, hcl⟩
      · rw [hfl] at hge
        simp at hge
        omega
      · simp only [hr]
        have hpos : 0 < bs.length := List.length_pos.2 hne
        have hfl2 : bs.length + (c.Read (min - acc.length)).2.input.flatten.length
            = c.input.flatten.length := by
          rw [← hfl, List.length_append]
        obtain ⟨h1, h2, h3⟩ := ih (c.Read (min - acc.length)).2 (acc ++ bs) hcl
          (by rw [List.length_append]; omega) (by rw [List.length_append]; omega)
        have hsub : min - (acc ++ bs).length = min - acc.length - bs.length := by
          rw [List.length_append]; omega
        refine ⟨?_, ?_, h3⟩
        · rw [h1, hsub, ← hfl, List.take_append_eq_append_take, List.take_of_length_le hlen,
            List.append_assoc]
        · rw [h2, hsub, ← hfl, List.drop_append_eq_append_drop, List.drop_of_length_le hlen]
          simp
    · rw [if_neg hacc]
      have h0 : min - acc.length = 0 := by omega
      simp [h0, hc]

theorem ReadFull_short (c : Conn) (len : Nat) (hlt : c.input.flatten.length < len) :
    ∃ e, (ReadFull c len).1.2 = some e := by
  cases hc : c.closed with
  | true =>
    cases len with
    | zero => omega
    | succ k =>
      refine ⟨GoError.ErrClosed, ?_⟩
      simp [ReadFull, readLoop, Read_closed c _ hc]
  | false =>
    have h := readLoop_short len c len [] hc (by simpa using hlt) (by simp)
    simp only [List.nil_append] at h
    unfold ReadFull
    simp only [h]
    rw [if_neg (by omega)]
    split
    · exact ⟨_, rfl⟩
    · exact ⟨GoError.EOF, by rw [h]⟩

theorem ReadFull_enough (c : Conn) (len : Nat) (hc : c.closed = false)
    (hge : len ≤ c.input.flatten.length) :
    (ReadFull c len).1 = (c.input.flatten.take len, none) ∧
    (ReadFull c len).2.input.flatten = c.input.flatten.drop len ∧
    (ReadFull c len).2.closed = false := by
  obtain ⟨h1, h2, h3⟩ := readLoop_enough len c len [] hc (by simpa using hge) (by simp)
  simp only [List.nil_append, List.length_nil, Nat.sub_zero] at h1 h2
  have hlen : len ≤ (c.input.flatten.take len).length := by
    rw [List.length_take]; omega
  unfold ReadFull
  simp only [h1, if_pos hlen]
  exact ⟨trivial, h2, h3⟩

/-- The loop of `io.ReadFull` never stops for lack of iterations: the call
either reports an error or returns exactly `len` bytes. -/
theorem ReadFull_complete (c : Conn) (len : Nat) :
    (∃ e, (ReadFull c len).1.2 = some e) ∨
    ((ReadFull c len).1.2 = none ∧ (ReadFull c len).1.1.length = len) := by
  by_cases hlt : c.input.flatten.length < len
  · exact Or.inl (ReadFull_short c len hlt)
  · cases hc : c.closed with
    | true =>
      cases len with
      | zero => exact Or.inr ⟨by simp [ReadFull, readLoop], by simp [ReadFull, readLoop]⟩
      | succ k =>
        exact Or.inl ⟨GoError.ErrClosed, by simp [ReadFull, readLoop, Read_closed c _ hc]⟩
    | false =>
      obtain ⟨h1, -, -⟩ := ReadFull_enough c len hc (by omega)
      refine Or.inr ⟨by rw [h1], ?_⟩
      rw [h1, List.length_take]
      omega

theorem binaryRead_error_of (c : Conn) (e : GoError) (h : (ReadFull c 8).1.2 = some e) :
    binaryRead c = (Except.error e, (ReadFull c 8).2) := by
  simp only [binaryRead, h]

theorem binaryRead_ok_of (c : Conn) (bs : List Byte) (h : (ReadFull c 8).1 = (bs, none)) :
    binaryRead c = (Except.ok (Uint64 bs), (ReadFull c 8).2) := by
  simp only [binaryRead, h]

theorem binaryRead_short (c : Conn) (hlt : c.input.flatten.length < 8) :
    ∃ e, (binaryRead c).1 = Except.error e := by
  obtain ⟨e, he⟩ := ReadFull_short c 8 hlt
  exact ⟨e, by rw [binaryRead_error_of c e he]⟩

theorem binaryRead_closed (c : Conn) (hc : c.closed = true) :
    (binaryRead c).1 = Except.error GoError.ErrClosed := by
  have h : (ReadFull c 8).1.2 = some GoError.ErrClosed := by
    simp [ReadFull, readLoop, Read_closed c _ hc]
  rw [binaryRead_error_of c _ h]

theorem binaryRead_enough (c : Conn) (hc : c.closed = false)
    (hge : 8 ≤ c.input.flatten.length) :
    (binaryRead c).1 = Except.ok (Uint64 (c.input.flatten.take 8)) ∧
    (binaryRead c).2.input.flatten = c.input.flatten.drop 8 ∧
    (binaryRead c).2.closed = false := by
  obtain ⟨h1, h2, h3⟩ := ReadFull_enough c 8 hc hge
  rw [binaryRead_ok_of c _ h1]
  exact ⟨rfl, h2, h3⟩

theorem ParseMessage_error_first (c : Conn) (e : GoError)
    (h : (binaryRead c).1 = Except.error e) : (ParseMessage c).1 = Except.error e := by
  simp only [ParseMessage, h]

theorem ParseMessage_error_second (c : Conn) (t : Nat) (e : GoError)
    (h1 : (binaryRead c).1 = Except.ok t)
    (h2 : (binaryRead (binaryRead c).2).1 = Except.error e) :
    (ParseMessage c).1 = Except.error e := by
  simp only [ParseMessage, h1, h2]

theorem ParseMessage_payload_read (c : Conn) (t n : Nat)
    (h1 : (binaryRead c).1 = Except.ok t)
    (h2 : (binaryRead (binaryRead c).2).1 = Except.ok n) :
    (ParseMessage c).1 =
      match ((binaryRead (binaryRead c).2).2.Read n).1.2 with
      | some e => Except.error e
      | none => Except.ok
          { MessageType := t, PayloadSize := n
            Payload := fill (List.replicate n 0)
              ((binaryRead (binaryRead c).2).2.Read n).1.1 } := by
  simp only [ParseMessage, h1, h2]
  split <;> rfl

/-- A stream that ends before 16 header bytes have arrived is rejected,
however the bytes are segmented. -/
theorem ParseMessage_truncated_header (c : Conn) (hlt : c.input.flatten.length < 16) :
    ∃ e, (ParseMessage c).1 = Except.error e := by
  cases hc : c.closed with
  | true => exact ⟨_, ParseMessage_error_first c _ (binaryRead_closed c hc)⟩
  | false =>
    by_cases h8 : c.input.flatten.length < 8
    · obtain ⟨e, he⟩ := binaryRead_short c h8
      exact ⟨e, ParseMessage_error_first c e he⟩
    · obtain ⟨h1, h2, -⟩ := binaryRead_enough c hc (by omega)
      obtain ⟨e, he⟩ := binaryRead_short (binaryRead c).2
        (by rw [h2, List.length_drop]; omega)
      exact ⟨e, ParseMessage_error_second c _ e h1 he⟩

/-- A complete header that declares a non-empty payload, followed by the end
of the stream, is rejected. -/
theorem ParseMessage_no_payload (c : Conn) (hc : c.closed = false)
    (hlen : c.input.flatten.length = 16)
    (hn : 0 < Uint64 ((c.input.flatten.drop 8).take 8)) :
    (ParseMessage c).1 = Except.error GoError.EOF := by
  obtain ⟨h1, h2, h3⟩ := binaryRead_enough c hc (by omega)
  obtain ⟨h4, h5, h6⟩ := binaryRead_enough (binaryRead c).2 h3
    (by rw [h2, List.length_drop]; omega)
  rw [h2] at h4
  rw [ParseMessage_payload_read c _ _ h1 h4]
  rcases Read_open _ _ h6 hn with ⟨hr, -⟩ | ⟨bs, -, hne, -, hfl, -⟩
  · simp only [hr]
  · exfalso
    have hl : (binaryRead (binaryRead c).2).2.input.flatten.length = 0 := by
      rw [h5, h2, List.length_drop, List.length_drop]; omega
    have := congrArg List.length hfl
    rw [List.length_append, hl] at this
    have hpos : 0 < bs.length := List.length_pos.2 hne
    omega

/-- As soon as one byte follows a complete header, `ParseMessage` returns a
message with the declared size, whether or not the declared number of payload
bytes has arrived: the payload is whatever the single `Read` delivered, padded
with zero bytes. -/
theorem ParseMessage_accepts_short_payload (c : Conn) (hc : c.closed = false)
    (hlen : 16 < c.input.flatten.length) :
    ∃ bs, bs.length ≤ Uint64 ((c.input.flatten.drop 8).take 8) ∧
      bs <+: c.input.flatten.drop 16 ∧
      (ParseMessage c).1 = Except.ok
        { MessageType := Uint64 (c.input.flatten.take 8)
          PayloadSize := Uint64 ((c.input.flatten.drop 8).take 8)
          Payload := bs ++ List.replicate
            (Uint64 ((c.input.flatten.drop 8).take 8) - bs.length) 0 } := by
  obtain ⟨h1, h2, h3⟩ := binaryRead_enough c hc (by omega)
  obtain ⟨h4, h5, h6⟩ := binaryRead_enough (binaryRead c).2 h3
    (by rw [h2, List.length_drop]; omega)
  rw [h2] at h4
  rw [h2, List.drop_drop] at h5
  rw [ParseMessage_payload_read c _ _ h1 h4]
  by_cases hn : Uint64 ((c.input.flatten.drop 8).take 8) = 0
  · refine ⟨[], by simp, ⟨_, List.nil_append _⟩, ?_⟩
    simp [hn, Conn.Read, h6, fill]
  · rcases Read_open _ _ h6 (Nat.pos_of_ne_zero hn) with ⟨-, hfl⟩ | ⟨bs, hr, -, hle, hfl, -⟩
    · exfalso
      have hl := congrArg List.length hfl
      rw [h5, List.length_drop, List.length_nil] at hl
      omega
    · refine ⟨bs, hle, ?_, ?_⟩
      · rw [h5] at hfl
        exact ⟨_, hfl⟩
      · simp only [hr, fill, List.drop_replicate]

theorem ReadFull_head_segment (c : Conn) (len : Nat) (s : List Byte) (rest : List (List Byte))
    (hc : c.closed = false) (hi : c.input = s :: rest) (hpos : 0 < len)
    (hlen : len ≤ s.length) :
    ReadFull c len = ((s.take len, none),
      { c with input := if s.length ≤ len then rest else s.drop len :: rest }) := by
  have hs : s ≠ [] := by
    intro h; rw [h] at hlen; simp at hlen; omega
  have hR := Read_segment c len s rest hc hpos hi hs
  have htl : (s.take len).length = len := by rw [List.length_take]; omega
  have hloop : readLoop len c len [] = ((s.take len, none),
      { c with input := if s.length ≤ len then rest else s.drop len :: rest }) := by
    cases len with
    | zero => omega
    | succ k =>
      unfold readLoop
      simp only [List.length_nil, Nat.sub_zero, hpos, if_true, hR, List.nil_append]
      cases k with
      | zero => rfl
      | succ j =>
        unfold readLoop
        rw [if_neg (by rw [htl]; omega)]
  unfold ReadFull
  simp only [hloop, htl, Nat.le_refl, if_true]

/-- Round trip when the whole frame is available to the reader at once: the
single `Read` for the payload then returns all of it. -/
theorem roundTrip_whole_delivery (w r : Conn) (m : Message)
    (ht : m.MessageType < 2 ^ 64) (hsize : m.PayloadSize = m.Payload.length)
    (hn : m.PayloadSize < 2 ^ 64) (hw : w.canWrite 3 = true) (hwo : w.output = [])
    (hr : r.closed = false) (hin : r.input = [(SendMessage w m).2.output]) :
    (ParseMessage r).1 = Except.ok m := by
  obtain ⟨t, n, payload⟩ := m
  simp only at ht hsize hn
  rw [(SendMessage_output w _ hw).2, hwo, List.nil_append] at hin
  simp only [frameOf, List.append_assoc] at hin
  -- first header field
  have hF1 := ReadFull_head_segment r 8 _ [] hr hin (by omega)
    (by simp [PutUint64_length])
  rw [List.take_left' (PutUint64_length t), List.drop_left' (PutUint64_length t),
    if_neg (by simp [PutUint64_length])] at hF1
  have hb1 : binaryRead r = (Except.ok t, { r with input := [PutUint64 n ++ payload] }) := by
    rw [binaryRead_ok_of r _ (by rw [hF1]), hF1, Uint64_PutUint64 t ht]
  -- second header field
  have hF2 := ReadFull_head_segment { r with input := [PutUint64 n ++ payload] } 8 _ [] hr rfl
    (by omega) (by simp [PutUint64_length])
  rw [List.take_left' (PutUint64_length n), List.drop_left' (PutUint64_length n)] at hF2
  have hb2 : binaryRead { r with input := [PutUint64 n ++ payload] }
      = (Except.ok n, { r with input :=
          if (PutUint64 n ++ payload).length ≤ 8 then [] else [payload] }) := by
    rw [binaryRead_ok_of _ _ (by rw [hF2]), hF2, Uint64_PutUint64 n hn]
  rw [ParseMessage_payload_read r t n (by rw [hb1]) (by rw [hb1, hb2])]
  simp only [hb1, hb2]
  cases payload with
  | nil =>
    subst hsize
    simp [Conn.Read, hr, fill]
  | cons b tl =>
    have hR := Read_segment
      { r with input := if (PutUint64 n ++ b :: tl).length ≤ 8 then [] else [b :: tl] }
      n (b :: tl) [] hr (by rw [hsize]; simp)
      (by rw [if_neg (by simp [PutUint64_length])]) (by simp)
    simp only [hR]
    rw [List.take_of_length_le (by rw [hsize])]
    simp [fill, hsize]

/-- C1: a valid message whose frame reaches the reader in two segments that
split the payload. `SendMessage` writes the 18 bytes of `Ok` with payload
`[1, 2]`; the reader receives exactly these bytes, 17 and then 1; `ParseMessage`
succeeds with the payload `[1, 0]`, which is not the payload sent. -/
theorem roundTrip_fails_on_split_payload :
    (SendMessage (freshConn [] [])
        { MessageType := Ok, PayloadSize := 2, Payload := [1, 2] }).1 = Except.ok 5 ∧
    (SendMessage (freshConn [] [])
        { MessageType := Ok, PayloadSize := 2, Payload := [1, 2] }).2.output
      = splitReader.input.flatten ∧
    (ParseMessage splitReader).1
      = Except.ok { MessageType := Ok, PayloadSize := 2, Payload := [1, 0] } ∧
    (ParseMessage splitReader).2.input = [[2]] :=
  ⟨rfl, rfl, rfl, rfl⟩

/-- C2: a stream that ends after a complete header declaring two payload bytes
and a single payload byte. `ParseMessage` returns no error but a message whose
payload holds the received byte followed by a zero byte that was never sent. -/
theorem ParseMessage_accepts_truncated_payload :
    truncatedReader.input.flatten.length = 16 + 1 ∧
    (ParseMessage truncatedReader).1
      = Except.ok { MessageType := Ok, PayloadSize := 2, Payload := [7, 0] } ∧
    (ParseMessage truncatedReader).2.input = [] :=
  ⟨rfl, rfl, rfl⟩

/-! ### `Pipe` -/

theorem dropWhile_zero_of_head (l : List Byte) (h : l.head? ≠ some 0) :
    l.dropWhile (fun b => [0].contains b) = l := by
  cases l with
  | nil => rfl
  | cons a t =>
    have ha : a ≠ 0 := by simpa using h
    simp [List.dropWhile, ha]

theorem dropWhile_zero_replicate (k : Nat) (l : List Byte) :
    (List.replicate k 0 ++ l).dropWhile (fun b => [0].contains b)
      = l.dropWhile (fun b => [0].contains b) := by
  induction k with
  | zero => simp
  | succ k ih => simp [List.replicate_succ, List.dropWhile, ih]

theorem bytesTrim_fill (N : Nat) (bs : List Byte) :
    bytesTrim (fill (List.replicate N 0) bs) [0] = bytesTrim bs [0] := by
  simp only [bytesTrim, bytesTrimRight, fill, List.drop_replicate, List.reverse_append,
    List.reverse_replicate, dropWhile_zero_replicate]

theorem bytesTrim_of_noZeroEnds (s : List Byte) (h : noZeroEnds s = true) :
    bytesTrim s [0] = s := by
  simp only [noZeroEnds, Bool.and_eq_true, bne_iff_ne, ne_eq] at h
  have h1 : s.reverse.dropWhile (fun b => [0].contains b) = s.reverse :=
    dropWhile_zero_of_head _ (by rw [List.head?_reverse]; exact h.2)
  simp only [bytesTrim, bytesTrimRight, bytesTrimLeft, h1, List.reverse_reverse]
  exact dropWhile_zero_of_head _ h.1

theorem bufferSize_pos : 0 < bufferSize := by decide

/-- What `pipeConns` does when both sides deliver a segment and accept a write. -/
theorem pipeConns_segments (destination source : Conn) (s r : List Byte)
    (srest drest : List (List Byte))
    (hs : source.input = s :: srest) (hr : destination.input = r :: drest)
    (hsne : s ≠ []) (hrne : r ≠ [])
    (hsw : source.canWrite 1 = true) (hdw : destination.canWrite 1 = true) :
    (pipeConns destination source).1.output
        = destination.output ++ bytesTrim (s.take bufferSize) [0] ∧
    (pipeConns destination source).2.output
        = source.output ++ bytesTrim (r.take bufferSize) [0] ∧
    (pipeConns destination source).2.input
        = (if s.length ≤ bufferSize then srest else s.drop bufferSize :: srest) ∧
    (pipeConns destination source).1.input
        = (if r.length ≤ bufferSize then drest else r.drop bufferSize :: drest) := by
  have hsc := closed_of_canWrite source 1 hsw
  have hR1 := Read_segment source bufferSize s srest hsc bufferSize_pos hs hsne
  obtain ⟨-, hW1o, -, hW1i, hW1c, -⟩ :=
    Write_of_canWrite destination (bytesTrim (s.take bufferSize) [0]) 0 hdw
  have hR2 := Read_segment _ bufferSize r drest hW1c bufferSize_pos (hW1i.trans hr) hrne
  have hsw1 : Conn.canWrite
      { source with input := if s.length ≤ bufferSize then srest else s.drop bufferSize :: srest }
      1 = true := hsw
  obtain ⟨-, hW2o, -, hW2i, -, -⟩ :=
    Write_of_canWrite _ (bytesTrim (r.take bufferSize) [0]) 0 hsw1
  simp only [pipeConns, hR1, bytesTrim_fill, hR2]
  exact ⟨hW1o, hW2o, hW2i, trivial⟩

/-- `Pipe` on two non-nil connections runs `pipeConns`. -/
theorem Pipe_some (destination source : Conn) :
    Pipe (some destination) (some source) = Except.ok (pipeConns destination source) := rfl

/-- C3 (as amended): `Pipe` performs one read of at most 4096 bytes in each
direction. When the source delivers a first segment `s` and the destination a
first segment `r`, both connections accept a write, and the blocks read
(the first 4096 bytes of `s` and of `r`) neither start nor end with a zero
byte, then `Pipe` returns, the bytes written to the destination are exactly
the block read from the source, the bytes written to the source are exactly
the block read from the destination, and everything after the block stays
unread in either stream. -/
theorem Pipe_forwards_single_read (destination source : Conn) (s r : List Byte)
    (srest drest : List (List Byte))
    (hs : source.input = s :: srest) (hr : destination.input = r :: drest)
    (hsne : s ≠ []) (hrne : r ≠ [])
    (hsz : noZeroEnds (s.take bufferSize) = true)
    (hrz : noZeroEnds (r.take bufferSize) = true)
    (hsw : source.canWrite 1 = true) (hdw : destination.canWrite 1 = true) :
    ∃ d1 s1, Pipe (some destination) (some source) = Except.ok (d1, s1) ∧
      d1.output = destination.output ++ s.take bufferSize ∧
      s1.output = source.output ++ r.take bufferSize ∧
      s1.input = (if s.length ≤ bufferSize then srest else s.drop bufferSize :: srest) ∧
      d1.input = (if r.length ≤ bufferSize then drest else r.drop bufferSize :: drest) := by
  obtain ⟨h1, h2, h3, h4⟩ :=
    pipeConns_segments destination source s r srest drest hs hr hsne hrne hsw hdw
  rw [bytesTrim_of_noZeroEnds _ hsz] at h1
  rw [bytesTrim_of_noZeroEnds _ hrz] at h2
  exact ⟨_, _, Pipe_some destination source, h1, h2, h3, h4⟩

/-- C3 (as amended) at a concrete pair: the source delivers `[1, 0, 2]` and
then `[3]`, the destination answers `[9, 8]`. -/
theorem Pipe_forwards_single_read_witness :
    ((freshConn [] [[1, 0, 2], [3]]).input = [1, 0, 2] :: [[3]] ∧
      replyingDestination.input = [9, 8] :: [] ∧
      [1, 0, 2] ≠ [] ∧ [9, 8] ≠ [] ∧
      noZeroEnds (([1, 0, 2] : List Byte).take bufferSize) = true ∧
      noZeroEnds (([9, 8] : List Byte).take bufferSize) = true ∧
      (freshConn [] [[1, 0, 2], [3]]).canWrite 1 = true ∧
      replyingDestination.canWrite 1 = true) ∧
    ∃ d1 s1, Pipe (some replyingDestination) (some (freshConn [] [[1, 0, 2], [3]]))
        = Except.ok (d1, s1) ∧
      d1.output = replyingDestination.output ++ ([1, 0, 2] : List Byte).take bufferSize ∧
      s1.output = (freshConn [] [[1, 0, 2], [3]]).output
        ++ ([9, 8] : List Byte).take bufferSize ∧
      s1.input = (if ([1, 0, 2] : List Byte).length ≤ bufferSize then [[3]]
        else ([1, 0, 2] : List Byte).drop bufferSize :: [[3]]) ∧
      d1.input = (if ([9, 8] : List Byte).length ≤ bufferSize then []
        else ([9, 8] : List Byte).drop bufferSize :: []) :=
  ⟨⟨rfl, rfl, by decide, by decide, by decide, by decide, rfl, rfl⟩,
    Pipe_forwards_single_read replyingDestination (freshConn [] [[1, 0, 2], [3]])
      [1, 0, 2] [9, 8] [[3]] [] rfl rfl (by decide) (by decide) (by decide) (by decide)
      rfl rfl⟩

/-- C3 as stated fails: the source delivers `[1, 2]` in two segments before its
end of stream, and `Pipe` writes only `[1]` to the destination; the second
segment is left unread. -/
theorem Pipe_stops_after_first_segment :
    twoSegmentSource.input.flatten = [1, 2] ∧
    ∃ d1 s1, Pipe (some replyingDestination) (some twoSegmentSource) = Except.ok (d1, s1) ∧
      d1.output = [1] ∧ d1.output ≠ twoSegmentSource.input.flatten ∧ s1.input = [[2]] := by
  obtain ⟨h1, -, h3, -⟩ :=
    pipeConns_segments replyingDestination twoSegmentSource [1] [9, 8] [[2]] [] rfl rfl
      (by decide) (by decide) rfl rfl
  have hout : (pipeConns replyingDestination twoSegmentSource).1.output = [1] := by
    rw [h1]; decide
  have hne : (pipeConns replyingDestination twoSegmentSource).1.output
      ≠ twoSegmentSource.input.flatten := by
    rw [hout]; decide
  have hin : (pipeConns replyingDestination twoSegmentSource).2.input = [[2]] := by
    rw [h3]; decide
  exact ⟨rfl, _, _, Pipe_some _ _, hout, hne, hin⟩

/-- The zero bytes at either end of a block are not forwarded: the source
delivers `[0, 65, 0]` and `Pipe` writes `[65]` to the destination. -/
theorem Pipe_trims_zero_bytes_example :
    ∃ d1 s1, Pipe (some replyingDestination) (some zeroEndedSource) = Except.ok (d1, s1) ∧
      d1.output = [65] := by
  obtain ⟨h1, -⟩ :=
    pipeConns_segments replyingDestination zeroEndedSource [0, 65, 0] [9, 8] [] [] rfl rfl
      (by decide) (by decide) rfl rfl
  have hout : (pipeConns replyingDestination zeroEndedSource).1.output = [65] := by
    rw [h1]; decide
  exact ⟨_, _, Pipe_some _ _, hout⟩

/-! ### Session registry -/

/-- C4 (as amended): on a registered agent id `AddListenerConnection` cannot
fail: it stores the new connection in the pending slot, replacing whatever the
slot held (a connection that was pending is neither kept nor closed), and
changes nothing else: the control connection and listener of the entry, all
other entries, all connection endpoints. -/
theorem AddListenerConnection_sets_slot (w : World) (c2 : Nat) (id : GoString)
    (e : clientConnection) (he : w.entries id = some e) :
    ∃ w1, AddListenerConnection w c2 id = Except.ok w1 ∧
      w1.entries id = some { e with clientListenerConn := some c2 } ∧
      (∀ id1, id1 ≠ id → w1.entries id1 = w.entries id1) ∧
      w1.conns = w.conns ∧ w1.closedListeners = w.closedListeners ∧
      w1.spawned = w.spawned := by
  unfold AddListenerConnection
  rw [he]
  refine ⟨_, rfl, ?_, ?_, rfl, rfl, rfl⟩
  · simp
  · intro id1 h
    simp [Function.update_noteq h]

/-- C4 (as amended) at the registry whose slot for `agentId` holds connection 3. -/
theorem AddListenerConnection_sets_slot_witness :
    occupiedWorld.entries agentId
      = some { conn := 1, clientListener := 2, clientListenerConn := some 3 } ∧
    ∃ w1, AddListenerConnection occupiedWorld 4 agentId = Except.ok w1 ∧
      w1.entries agentId = some { conn := 1, clientListener := 2, clientListenerConn := some 4 } ∧
      (∀ id1, id1 ≠ agentId → w1.entries id1 = occupiedWorld.entries id1) ∧
      w1.conns = occupiedWorld.conns ∧ w1.closedListeners = occupiedWorld.closedListeners ∧
      w1.spawned = occupiedWorld.spawned :=
  ⟨rfl, AddListenerConnection_sets_slot occupiedWorld 4 agentId
    { conn := 1, clientListener := 2, clientListenerConn := some 3 } rfl⟩

/-- C4 as stated fails: the slot of `agentId` holds connection 3, and
`AddListenerConnection` with connection 4 returns normally with the slot
holding 4; connection 3 is gone from the registry and still open. -/
theorem AddListenerConnection_overwrites_pending :
    (occupiedWorld.entries agentId).map (fun e => e.clientListenerConn) = some (some 3) ∧
    ∃ w1, AddListenerConnection occupiedWorld 4 agentId = Except.ok w1 ∧
      (w1.entries agentId).map (fun e => e.clientListenerConn) = some (some 4) ∧
      (w1.conns 3).closed = false :=
  ⟨rfl, _, rfl, rfl, rfl⟩

/-- The accept loop applies no check of its own: with connection 3 pending it
stores the newly accepted connection 4 and announces it with `Incoming`. -/
theorem acceptLoopIter_overwrites_example :
    ∃ w1, acceptLoopIter occupiedWorld agentId 1 (some 4) = Except.ok (false, w1) ∧
      (w1.entries agentId).map (fun e => e.clientListenerConn) = some (some 4) ∧
      (w1.conns 1).output
        = frameOf { MessageType := Incoming, PayloadSize := 5, Payload := agentId } :=
  ⟨_, rfl, rfl, rfl⟩

/-- Removing an id that has no entry dereferences the nil pointer the map
yields. -/
theorem ClientDisconnected_absent (w : World) (id : GoString) (h : w.entries id = none) :
    ClientDisconnected w id = Except.error Fault.nilDereference := by
  simp only [ClientDisconnected, h]

/-- C5: `ClientDisconnected` on an id without entry panics. In the empty
registry the call faults; after a first, successful removal of `agentId` the
second call faults; and the control loop reaches this call when a connection
that never registered is closed by its peer. -/
theorem ClientDisconnected_absent_id_panics :
    emptyWorld.entries agentId = none ∧
    ClientDisconnected emptyWorld agentId = Except.error Fault.nilDereference ∧
    (∃ w1, ClientDisconnected occupiedWorld agentId = Except.ok w1 ∧
      ClientDisconnected w1 agentId = Except.error Fault.nilDereference) ∧
    handleNewConnection 1 emptyWorld 1 = Except.error Fault.nilDereference :=
  ⟨rfl, rfl, ⟨_, rfl, rfl⟩, rfl⟩

/-! ### Control loop -/

theorem Read_remoteAddr (c : Conn) (n : Nat) : (c.Read n).2.remoteAddr = c.remoteAddr := by
  unfold Conn.Read
  split
  · rfl
  · split
    · rfl
    · split <;> rfl

theorem readLoop_remoteAddr (fuel : Nat) (c : Conn) (min : Nat) (acc : List Byte) :
    (readLoop fuel c min acc).2.remoteAddr = c.remoteAddr := by
  induction fuel generalizing c acc with
  | zero => rfl
  | succ fuel ih =>
    unfold readLoop
    split
    · simp only
      split
      · exact Read_remoteAddr _ _
      · rw [ih]; exact Read_remoteAddr _ _
    · rfl

theorem ReadFull_remoteAddr (c : Conn) (len : Nat) :
    (ReadFull c len).2.remoteAddr = c.remoteAddr := by
  unfold ReadFull
  simp only
  split
  · exact readLoop_remoteAddr _ _ _ _
  · split <;> exact readLoop_remoteAddr _ _ _ _

theorem binaryRead_remoteAddr (c : Conn) : (binaryRead c).2.remoteAddr = c.remoteAddr := by
  unfold binaryRead
  simp only
  split <;> exact ReadFull_remoteAddr _ _

theorem ParseMessage_remoteAddr (c : Conn) : (ParseMessage c).2.remoteAddr = c.remoteAddr := by
  unfold ParseMessage
  simp only
  split
  · exact binaryRead_remoteAddr _
  · split
    · rw [binaryRead_remoteAddr, binaryRead_remoteAddr]
    · split
      · rw [Read_remoteAddr, binaryRead_remoteAddr, binaryRead_remoteAddr]
      · rw [Read_remoteAddr, binaryRead_remoteAddr, binaryRead_remoteAddr]

/-- Removing a registered id closes the pending connection if there is one,
the listener and the control connection, deletes the entry and keeps all
other entries. -/
theorem ClientDisconnected_present (w : World) (id : GoString) (e : clientConnection)
    (he : w.entries id = some e) :
    ∃ w1, ClientDisconnected w id = Except.ok w1 ∧
      w1.entries id = none ∧
      e.clientListener ∈ w1.closedListeners ∧
      (w1.conns e.conn).closed = true ∧
      (∀ p, e.clientListenerConn = some p → (w1.conns p).closed = true) ∧
      (∀ id1, id1 ≠ id → w1.entries id1 = w.entries id1) := by
  unfold ClientDisconnected
  rw [he]
  refine ⟨_, rfl, ?_, ?_, ?_, ?_, ?_⟩
  · simp
  · simp [World.closeConn, World.closeListener, World.setConn]
  · simp [World.closeConn, World.closeListener, World.setConn]
  · intro p hp
    by_cases hpc : p = e.conn
    · simp [World.closeConn, World.closeListener, World.setConn, hp, hpc]
    · simp [World.closeConn, World.closeListener, World.setConn, hp, Function.update_noteq hpc]
  · intro id1 h
    cases hl : e.clientListenerConn <;>
      simp [World.closeConn, World.closeListener, World.setConn, Function.update_noteq h]

/-- C6: for every state with an entry for the agent id of control connection
`c`, when `ParseMessage` on `c` fails with end-of-stream, the control loop
leaves by `break` in its first iteration, and afterwards the registry has no
entry for the id, the listener, the control connection and the connection in
the pending slot (if any) of the session are closed, and the entries of all
other ids are unchanged. -/
theorem handleNewConnection_eof_cleanup (fuel : Nat) (w : World) (c : Nat)
    (e : clientConnection)
    (he : w.entries (w.conns c).remoteAddr = some e)
    (heof : (ParseMessage (w.conns c)).1 = Except.error GoError.EOF) :
    ∃ w1, handleNewConnection (fuel + 1) w c = Except.ok (true, w1) ∧
      w1.entries (w.conns c).remoteAddr = none ∧
      e.clientListener ∈ w1.closedListeners ∧
      (w1.conns e.conn).closed = true ∧
      (∀ p, e.clientListenerConn = some p → (w1.conns p).closed = true) ∧
      (∀ id1, id1 ≠ (w.conns c).remoteAddr → w1.entries id1 = w.entries id1) := by
  have haddr : ((w.setConn c (ParseMessage (w.conns c)).2).conns c).remoteAddr
      = (w.conns c).remoteAddr := by
    simp [World.setConn, ParseMessage_remoteAddr]
  have he1 : (w.setConn c (ParseMessage (w.conns c)).2).entries (w.conns c).remoteAddr
      = some e := he
  obtain ⟨w1, hw1, h1, h2, h3, h4, h5⟩ := ClientDisconnected_present _ _ e he1
  refine ⟨w1, ?_, h1, h2, h3, h4, h5⟩
  simp only [handleNewConnection, handleNewConnectionIter, heof, haddr, hw1]
  simp

/-- C6 at the state where `agentId` is registered with a pending connection and
the peer of control connection 1 has closed. -/
theorem handleNewConnection_eof_cleanup_witness :
    (occupiedWorld.entries (occupiedWorld.conns 1).remoteAddr
        = some { conn := 1, clientListener := 2, clientListenerConn := some 3 } ∧
      (ParseMessage (occupiedWorld.conns 1)).1 = Except.error GoError.EOF) ∧
    ∃ w1, handleNewConnection (0 + 1) occupiedWorld 1 = Except.ok (true, w1) ∧
      w1.entries (occupiedWorld.conns 1).remoteAddr = none ∧
      2 ∈ w1.closedListeners ∧
      (w1.conns 1).closed = true ∧
      (∀ p, some 3 = some p → (w1.conns p).closed = true) ∧
      (∀ id1, id1 ≠ (occupiedWorld.conns 1).remoteAddr →
        w1.entries id1 = occupiedWorld.entries id1) :=
  ⟨⟨rfl, rfl⟩,
    handleNewConnection_eof_cleanup 0 occupiedWorld 1
      { conn := 1, clientListener := 2, clientListenerConn := some 3 } rfl rfl⟩

/-- An acknowledgment for a registered id whose slot is empty makes the
switch call `Pipe` with a nil source. -/
theorem dispatch_ack_empty_slot (w : World) (c : Nat) (n : Nat) (id : GoString)
    (e : clientConnection) (he : w.entries id = some e) (hslot : e.clientListenerConn = none) :
    dispatch w c { MessageType := Ok, PayloadSize := n, Payload := id }
      = Except.error Fault.nilDereference := by
  have hne : ¬ (Ok = Connect) := by decide
  simp only [dispatch, hne, if_false, if_true, evictListenerConnectionForClient, he, hslot,
    Option.map, Pipe]

/-- C8: the agent is registered with an empty pending slot and its `Ok`
message with payload `agentId` is read from the control connection; the
iteration of the control loop ends in a nil dereference inside `Pipe` instead
of returning to the loop. -/
theorem ack_without_pending_panics :
    (idleWorld.entries agentId).map (fun e => e.clientListenerConn) = some none ∧
    (ParseMessage (idleWorld.conns 1)).1
      = Except.ok { MessageType := Ok, PayloadSize := 5, Payload := agentId } ∧
    (evictListenerConnectionForClient idleWorld agentId).map (fun r => r.1) = Except.ok none ∧
    Pipe (some (idleWorld.conns 1)) none = Except.error Fault.nilDereference ∧
    handleNewConnectionIter idleWorld 1 = Except.error Fault.nilDereference ∧
    handleNewConnection 1 idleWorld 1 = Except.error Fault.nilDereference :=
  ⟨rfl, rfl, rfl, rfl, rfl, rfl⟩

/-! ### Port allocation and handshake -/

theorem tryToBindPortLoop_find (probe : Nat → Bool) (l : List Nat) :
    tryToBindPortLoop probe l =
      match l.find? (fun v => probe (min_port_value + v)) with
      | some v => Except.ok (min_port_value + v)
      | none => Except.error GoError.ErrNoPort := by
  induction l with
  | nil => rfl
  | cons v rest ih =>
    by_cases h : probe (min_port_value + v) = true
    · simp [tryToBindPortLoop, List.find?, h]
    · simp only [Bool.not_eq_true] at h
      simp [tryToBindPortLoop, List.find?, h, ih]

/-- C10: for every permutation `perm` of the offsets `0 .. 999` and every
probe outcome, `tryToBindPort` returns the first port `60000 + offset`, in the
order of `perm`, on which the probe succeeds; a returned port lies in
`[60000, 61000)`, the probe succeeds on it and fails on every candidate tried
before it; and an error is returned exactly when the probe fails on every
port of `[60000, 61000)`. -/
theorem tryToBindPort_first_free (perm : List Nat) (probe : Nat → Bool)
    (hperm : perm.Perm (List.range (max_port_value - min_port_value))) :
    (tryToBindPort perm probe =
      match perm.find? (fun v => probe (min_port_value + v)) with
      | some v => Except.ok (min_port_value + v)
      | none => Except.error GoError.ErrNoPort) ∧
    (∀ p, tryToBindPort perm probe = Except.ok p →
      min_port_value ≤ p ∧ p < max_port_value ∧ probe p = true ∧
      ∃ pre v post, perm = pre ++ v :: post ∧ p = min_port_value + v ∧
        ∀ u ∈ pre, probe (min_port_value + u) = false) ∧
    ((∃ err, tryToBindPort perm probe = Except.error err) ↔
      ∀ p, min_port_value ≤ p → p < max_port_value → probe p = false) ∧
    min_port_value = 60000 ∧ max_port_value = 61000 := by
  have hmem : ∀ v, v ∈ perm ↔ v < 1000 := by
    intro v
    rw [hperm.mem_iff]
    simp [max_port_value, min_port_value]
  have hfind := tryToBindPortLoop_find probe perm
  refine ⟨hfind, ?_, ?_, rfl, rfl⟩
  · intro p hp
    unfold tryToBindPort at hp
    rw [hfind] at hp
    cases hf : perm.find? (fun v => probe (min_port_value + v)) with
    | none => simp [hf] at hp
    | some v =>
      simp only [hf, Except.ok.injEq] at hp
      have hv : probe (min_port_value + v) = true := by
        simpa using List.find?_some hf
      have hvm : v < 1000 := (hmem v).1 (List.mem_of_find?_eq_some hf)
      obtain ⟨pre, post, hsplit, hpre⟩ := (List.find?_eq_some.1 hf).2
      refine ⟨?_, ?_, ?_, pre, v, post, hsplit, hp.symm, ?_⟩
      · rw [← hp]; exact Nat.le_add_right _ _
      · rw [← hp]; simp only [min_port_value, max_port_value]; omega
      · rw [← hp]; exact hv
      · intro u hu
        simpa using hpre u hu
  · unfold tryToBindPort
    rw [hfind]
    constructor
    · rintro ⟨err, herr⟩ p hlo hhi
      cases hf : perm.find? (fun v => probe (min_port_value + v)) with
      | some v => simp [hf] at herr
      | none =>
        have hall := List.find?_eq_none.1 hf
        have hpm : p - min_port_value ∈ perm := by
          rw [hmem]; simp only [min_port_value, max_port_value] at *; omega
        have := hall _ hpm
        have hadd : min_port_value + (p - min_port_value) = p := by omega
        simpa [hadd] using this
    · intro hall
      have hnone : perm.find? (fun v => probe (min_port_value + v)) = none := by
        rw [List.find?_eq_none]
        intro v hv
        have hvm := (hmem v).1 hv
        have := hall (min_port_value + v) (Nat.le_add_right _ _)
          (by simp only [min_port_value, max_port_value]; omega)
        simp [this]
      exact ⟨GoError.ErrNoPort, by simp [hnone]⟩

/-- The descending offsets are a permutation of `0 .. 999`. -/
theorem descendingOffsets_perm :
    descendingOffsets.Perm (List.range (max_port_value - min_port_value)) := by
  unfold descendingOffsets
  exact List.reverse_perm _

/-- C10 at the descending permutation with only port 60002 free. -/
theorem tryToBindPort_first_free_witness :
    descendingOffsets.Perm (List.range (max_port_value - min_port_value)) ∧
    ((tryToBindPort descendingOffsets onlyPort60002 =
      match descendingOffsets.find? (fun v => onlyPort60002 (min_port_value + v)) with
      | some v => Except.ok (min_port_value + v)
      | none => Except.error GoError.ErrNoPort) ∧
    (∀ p, tryToBindPort descendingOffsets onlyPort60002 = Except.ok p →
      min_port_value ≤ p ∧ p < max_port_value ∧ onlyPort60002 p = true ∧
      ∃ pre v post, descendingOffsets = pre ++ v :: post ∧ p = min_port_value + v ∧
        ∀ u ∈ pre, onlyPort60002 (min_port_value + u) = false) ∧
    ((∃ err, tryToBindPort descendingOffsets onlyPort60002 = Except.error err) ↔
      ∀ p, min_port_value ≤ p → p < max_port_value → onlyPort60002 p = false) ∧
    min_port_value = 60000 ∧ max_port_value = 61000) :=
  ⟨descendingOffsets_perm,
    tryToBindPort_first_free descendingOffsets onlyPort60002 descendingOffsets_perm⟩

set_option maxRecDepth 100000 in
/-- With the offsets tried in descending order and only port 60002 free, the
allocator returns 60002. -/
theorem tryToBindPort_example :
    tryToBindPort descendingOffsets onlyPort60002 = Except.ok 60002 := rfl

set_option maxRecDepth 100000 in
/-- C9: two failed handshakes on a fresh control connection 1 from `agentId`.
When no port can be allocated and the later bind on port 0 succeeds, the relay
sends `Error` and then `Ok` with payload `localhost:0`, registers the agent and
starts the accept loop. When a port is allocated and the later bind fails, the
relay sends nothing at all, so no `Error` reaches the agent. -/
theorem createPortListener_failure_paths :
    tryToBindPort envNoPort.perm envNoPort.probe = Except.error GoError.ErrNoPort ∧
    ((createPortListener envNoPort emptyWorld 1).conns 1).output
      = frameOf { MessageType := Error, PayloadSize := 0, Payload := [] }
        ++ frameOf { MessageType := Ok, PayloadSize := 11, Payload := goString "localhost:0" } ∧
    (createPortListener envNoPort emptyWorld 1).entries agentId
      = some { conn := 1, clientListener := 7, clientListenerConn := none } ∧
    (createPortListener envNoPort emptyWorld 1).spawned = [Goroutine.acceptLoop 7 agentId 1] ∧
    tryToBindPort envBindFails.perm envBindFails.probe = Except.ok 60000 ∧
    envBindFails.listen 60000 = none ∧
    ((createPortListener envBindFails emptyWorld 1).conns 1).output = [] ∧
    (createPortListener envBindFails emptyWorld 1).entries agentId = none ∧
    (createPortListener envBindFails emptyWorld 1).spawned = [] :=
  ⟨rfl, rfl, rfl, rfl, rfl, rfl, rfl, rfl, rfl⟩

end TcpTunnel
